import Mathlib

/-!
Shallow embedding of `src/ext/fetch/resolver.rs`: the `CustomResolver`
name-resolution service, its override table, the `CustomResolverFuture`
poll/drop behaviour, and the `SocketAddrs` address sequence with its
literal-IP parse (`try_parse`), `filter` and `split_by_preference`
operations. Address sequences are Lean lists; the IPv4/IPv6 literal
grammar is the one of Rust's standard library `FromStr` parsers
(`core::net::parser`), which `try_parse` calls.
-/

namespace Resolver

/-- An IPv4 address: four octets (`std::net::Ipv4Addr`). -/
structure Ipv4Addr where
  a : Nat
  b : Nat
  c : Nat
  d : Nat
deriving DecidableEq

/-- An IPv6 address: eight 16-bit segments (`std::net::Ipv6Addr`). -/
structure Ipv6Addr where
  segments : List Nat
deriving DecidableEq

/-- `std::net::SocketAddr`: a v4 socket address carries an ip and a port
(`SocketAddrV4`), a v6 one additionally a flowinfo and a scope id
(`SocketAddrV6`). -/
inductive SocketAddr where
  | v4 (ip : Ipv4Addr) (port : Nat)
  | v6 (ip : Ipv6Addr) (port : Nat) (flowinfo : Nat) (scope_id : Nat)
deriving DecidableEq

/-- `SocketAddr::is_ipv4`. -/
def SocketAddr.is_ipv4 : SocketAddr → Bool
  | .v4 _ _ => true
  | .v6 _ _ _ _ => false

/-- `SocketAddr::is_ipv6`. -/
def SocketAddr.is_ipv6 : SocketAddr → Bool
  | .v4 _ _ => false
  | .v6 _ _ _ _ => true

/-- Value of a decimal digit, as Rust's `char::to_digit(10)`. -/
def decDigitVal (c : Char) : Option Nat :=
  if 48 ≤ c.toNat ∧ c.toNat ≤ 57 then some (c.toNat - 48) else none

/-- Value of a hexadecimal digit, as Rust's `char::to_digit(16)`. -/
def hexDigitVal (c : Char) : Option Nat :=
  if 48 ≤ c.toNat ∧ c.toNat ≤ 57 then some (c.toNat - 48)
  else if 97 ≤ c.toNat ∧ c.toNat ≤ 102 then some (c.toNat - 87)
  else if 65 ≤ c.toNat ∧ c.toNat ≤ 70 then some (c.toNat - 55)
  else none

/-- `Parser::read_number` of `core::net::parser`: greedily read digits in the
given radix and fail on an empty run, on more than `maxDigits` digits, on a
leading zero when `allowZeroPrefix` is false, or when the value overflows the
target integer type (`maxVal`). On failure nothing is consumed (the Rust
parser reads atomically). -/
def readNumber (digit : Char → Option Nat) (radix maxDigits maxVal : Nat)
    (allowZeroPrefix : Bool) (s : List Char) : Option (Nat × List Char) :=
  let ds := s.takeWhile (fun c => (digit c).isSome)
  let rest := s.drop ds.length
  if ds.length = 0 then none
  else if maxDigits < ds.length then none
  else if allowZeroPrefix = false ∧ ds.head? = some '0' ∧ 1 < ds.length then none
  else
    let v := ds.foldl (fun acc c => acc * radix + (digit c).getD 0) 0
    if maxVal < v then none else some (v, rest)

/-- One octet of an IPv4 literal: `read_number(10, Some(3), false)` into `u8`. -/
def readOctet (s : List Char) : Option (Nat × List Char) :=
  readNumber decDigitVal 10 3 255 false s

/-- One 16-bit group of an IPv6 literal: `read_number(16, Some(4), true)` into
`u16`. -/
def readGroup16 (s : List Char) : Option (Nat × List Char) :=
  readNumber hexDigitVal 16 4 65535 true s

/-- `Parser::read_given_char`. -/
def expectChar (c : Char) (s : List Char) : Option (List Char) :=
  match s with
  | [] => none
  | x :: rest => if x = c then some rest else none

/-- `Parser::read_ipv4_addr`: four octets separated by dots; the rest of the
input is returned unconsumed. -/
def readIpv4Addr (s : List Char) : Option (Ipv4Addr × List Char) := do
  let (a, s) ← readOctet s
  let s ← expectChar '.' s
  let (b, s) ← readOctet s
  let s ← expectChar '.' s
  let (c, s) ← readOctet s
  let s ← expectChar '.' s
  let (d, s) ← readOctet s
  pure (⟨a, b, c, d⟩, s)

/-- High 16-bit group of an embedded IPv4 tail: `u16::from_be_bytes([one, two])`. -/
def ipv4Hi (x : Ipv4Addr) : Nat := x.a * 256 + x.b

/-- Low 16-bit group of an embedded IPv4 tail: `u16::from_be_bytes([three, four])`. -/
def ipv4Lo (x : Ipv4Addr) : Nat := x.c * 256 + x.d

/-- `read_groups` inside `Parser::read_ipv6_addr`: read up to `remaining`
16-bit groups, each group after the first of the run preceded by a colon
(`i` is the index of the next group); while at least two slots remain, a
trailing embedded IPv4 address may end the run, filling two groups. Returns
the groups read, whether an embedded IPv4 ended them, and the unconsumed
rest; a failing group read consumes nothing. -/
def readGroups : Nat → Nat → List Char → List Nat × Bool × List Char
  | 0, _, s => ([], false, s)
  | remaining + 1, i, s =>
    let afterSep : Option (List Char) :=
      if 0 < i then expectChar ':' s else some s
    match (if 0 < remaining then afterSep.bind readIpv4Addr else none) with
    | some (x, rest) => ([ipv4Hi x, ipv4Lo x], true, rest)
    | none =>
      match afterSep.bind readGroup16 with
      | some (g, rest) =>
        let t := readGroups remaining (i + 1) rest
        (g :: t.1, t.2.1, t.2.2)
      | none => ([], false, s)

/-- `Parser::read_ipv6_addr`: up to eight head groups; a full head is the
address. Otherwise a double colon must follow (an embedded IPv4 tail is not
allowed before it), then at most `8 - (head + 1)` tail groups; the gap
between head and tail is filled with zero groups. -/
def readIpv6Addr (s : List Char) : Option (Ipv6Addr × List Char) :=
  let h := readGroups 8 0 s
  let head := h.1
  if head.length = 8 then some (⟨head⟩, h.2.2)
  else if h.2.1 then none
  else
    match expectChar ':' h.2.2 with
    | none => none
    | some r1 =>
      match expectChar ':' r1 with
      | none => none
      | some r2 =>
        let t := readGroups (8 - (head.length + 1)) 0 r2
        some (⟨head ++ List.replicate (8 - head.length - t.1.length) 0 ++ t.1⟩,
          t.2.2)

/-- `Ipv4Addr::from_str`, i.e. `host.parse::<Ipv4Addr>()`: `read_ipv4_addr`
must consume the whole string. -/
def parseIpv4 (s : String) : Option Ipv4Addr :=
  match readIpv4Addr s.toList with
  | some (a, []) => some a
  | _ => none

/-- `Ipv6Addr::from_str`, i.e. `host.parse::<Ipv6Addr>()`: `read_ipv6_addr`
must consume the whole string. -/
def parseIpv6 (s : String) : Option Ipv6Addr :=
  match readIpv6Addr s.toList with
  | some (a, []) => some a
  | _ => none

/-- The address sequence backing `SocketAddrs` (the buffer of its
`vec::IntoIter`), in order. -/
abbrev SocketAddrs := List SocketAddr

/-- `SocketAddrs::try_parse` (lines 162-176): try the host as an IPv4 literal,
then as an IPv6 literal; on success a single-element sequence with the given
port — the v6 constructor called as `SocketAddrV6::new(addr, port, 0, 0)` —
otherwise `None`. It takes no override table and no resolver. -/
def SocketAddrs.try_parse (host : String) (port : Nat) : Option SocketAddrs :=
  match parseIpv4 host with
  | some addr => some [SocketAddr.v4 addr port]
  | none =>
    match parseIpv6 host with
    | some addr => some [SocketAddr.v6 addr port 0 0]
    | none => none

/-- `SocketAddrs::filter` (lines 178-181): `iter.filter(predicate).collect()`,
order preserving. -/
def SocketAddrs.filter (self : SocketAddrs) (predicate : SocketAddr → Bool) :
    SocketAddrs :=
  List.filter predicate self

/-- `SocketAddrs::split_by_preference` (lines 183-210). -/
def SocketAddrs.split_by_preference (self : SocketAddrs)
    (local_addr_ipv4 : Option Ipv4Addr) (local_addr_ipv6 : Option Ipv6Addr) :
    SocketAddrs × SocketAddrs :=
  match local_addr_ipv4, local_addr_ipv6 with
  | some _, none => (SocketAddrs.filter self SocketAddr.is_ipv4, [])
  | none, some _ => (SocketAddrs.filter self SocketAddr.is_ipv6, [])
  | _, _ =>
    let preferring_v6 := ((List.head? self).map SocketAddr.is_ipv6).getD false
    List.partition (fun addr => addr.is_ipv6 == preferring_v6) self

/-- The override table `HashMap<String, Vec<SocketAddr>>` as an association
list; `HashMap::get` looks a hostname up by exact string equality. -/
def overridesGet (m : List (String × List SocketAddr)) (k : String) :
    Option (List SocketAddr) :=
  (m.find? (fun p => p.1 == k)).map (fun p => p.2)

/-- `CustomResolver`: the override table, fixed at construction. -/
structure CustomResolver where
  overrides : List (String × List SocketAddr)

/-- The unit of work `CustomResolver::call` spawns (lines 75-95): on an
override hit, `tokio::spawn` of an async block that immediately yields
`Ok(SocketAddrs { iter: addrs.into_iter() })`; on a miss,
`tokio::task::spawn_blocking` of the blocking `to_socket_addrs`
(getaddrinfo) platform lookup for the name. -/
inductive ResolverTask where
  | overrideHit (addrs : List SocketAddr)
  | platformLookup (name : String)
deriving DecidableEq

/-- `CustomResolver::call`. -/
def CustomResolver.call (r : CustomResolver) (name : String) : ResolverTask :=
  match overridesGet r.overrides name with
  | some addrs => ResolverTask.overrideHit addrs
  | none => ResolverTask.platformLookup name

/-- How many blocking platform-lookup units the spawned work runs: the
override-hit task performs none, the miss task performs exactly one
`to_socket_addrs` call. -/
def ResolverTask.platformLookups : ResolverTask → Nat
  | .overrideHit _ => 0
  | .platformLookup _ => 1

/-- Whether the spawned work performs network access: only the platform
lookup (getaddrinfo) may touch the network. -/
def ResolverTask.networkAccess : ResolverTask → Bool
  | .overrideHit _ => false
  | .platformLookup _ => true

/-- The address sequence the spawned work yields without any lookup: the
override-hit body returns its captured list unchanged and in order. -/
def ResolverTask.immediate : ResolverTask → Option SocketAddrs
  | .overrideHit addrs => some addrs
  | .platformLookup _ => none

/-- The execution context a spawned unit of work runs on: `tokio::spawn`
schedules its task on the cooperative scheduler's executor,
`tokio::task::spawn_blocking` on the runtime's dedicated pool of worker
threads for blocking operations. -/
inductive ExecutionContext where
  | cooperativeScheduler
  | blockingThreadPool
deriving DecidableEq

/-- Where `CustomResolver::call` schedules each kind of spawned work: the
override hit goes through `tokio::spawn`, the miss path through
`tokio::task::spawn_blocking`. -/
def ResolverTask.spawnContext : ResolverTask → ExecutionContext
  | .overrideHit _ => ExecutionContext.cooperativeScheduler
  | .platformLookup _ => ExecutionContext.blockingThreadPool

/-- An `io::Error`: the `Interrupted` kind the poll path constructs for a
cancelled task, or an OS resolution error passed through unchanged. -/
inductive IoError where
  | interrupted
  | os (code : Nat)
deriving DecidableEq

/-- State of the `JoinHandle<Result<SocketAddrs, io::Error>>` inside a
`CustomResolverFuture`: still running, finished with the closure's result, or
aborted before it completed. -/
inductive HandleState where
  | pending
  | finished (result : Except IoError SocketAddrs)
  | abortedPending

/-- Semantics of `JoinHandle::abort` (tokio, an external dependency of the
source, as its documentation states them): aborting a task that has not yet
completed cancels it; aborting one that already finished is a no-op. -/
def abortHandle : HandleState → HandleState
  | .pending => .abortedPending
  | s => s

/-- `Drop for CustomResolverFuture` (lines 131-135): dropping the future
calls `self.inner.abort()`. -/
def CustomResolverFuture.drop (h : HandleState) : HandleState := abortHandle h

/-- What polling the `JoinHandle` yields once ready: `Ok` of the closure's
result, or a `JoinError` whose `is_cancelled()` distinguishes an aborted task
from one whose worker terminated abnormally. -/
inductive JoinOutcome where
  | ok (result : Except IoError SocketAddrs)
  | joinError (cancelled : Bool)

/-- The join outcome a later observer of the handle reads (tokio semantics):
a pending task is not ready yet, a finished one yields `Ok` of its result,
an aborted one yields a cancelled `JoinError`. -/
def joinOutcome : HandleState → Option JoinOutcome
  | .pending => none
  | .finished r => some (JoinOutcome.ok r)
  | .abortedPending => some (JoinOutcome.joinError true)

/-- What `CustomResolverFuture::poll` produces from a ready join outcome. -/
inductive PollOutput where
  | success (addrs : SocketAddrs)
  | failure (err : IoError)
  | panicked

/-- The match inside `CustomResolverFuture::poll` (lines 111-121):
`Ok(Ok(addrs))` succeeds, `Ok(Err(err))` passes the error through, a
cancelled `JoinError` becomes an `Interrupted` io error, and any other
`JoinError` (the background worker itself crashed) panics. -/
def CustomResolverFuture.pollMap : JoinOutcome → PollOutput
  | .ok (.ok addrs) => PollOutput.success addrs
  | .ok (.error e) => PollOutput.failure e
  | .joinError true => PollOutput.failure IoError.interrupted
  | .joinError false => PollOutput.panicked

/-- A sample IPv4 socket address, 127.0.0.1:80. -/
def sampleV4 : SocketAddr := SocketAddr.v4 ⟨127, 0, 0, 1⟩ 80

/-- A sample IPv6 socket address, [::1]:80. -/
def sampleV6 : SocketAddr := SocketAddr.v6 ⟨[0, 0, 0, 0, 0, 0, 0, 1]⟩ 80 0 0

/-- With both local addresses pinned or neither pinned, `split_by_preference`
is the stable partition of the sequence by the predicate comparing each
element's family with the first element's. -/
theorem split_unpinned_eq (S : SocketAddrs) (pv4 : Option Ipv4Addr)
    (pv6 : Option Ipv6Addr) (h : pv4.isSome = pv6.isSome) :
    SocketAddrs.split_by_preference S pv4 pv6 =
      (List.filter
        (fun a => SocketAddr.is_ipv6 a ==
          ((List.head? S).map SocketAddr.is_ipv6).getD false) S,
       List.filter
        (fun a => !(SocketAddr.is_ipv6 a ==
          ((List.head? S).map SocketAddr.is_ipv6).getD false)) S) := by
  cases pv4 <;> cases pv6 <;>
    simp_all [SocketAddrs.split_by_preference,
      List.partition_eq_filter_filter] <;>
    (try rfl)

/-- Claim C1 (amended): with both pinned local addresses present or neither
present, `split_by_preference` is total — the two halves' lengths add up to
the source's and their concatenation is a permutation of the source (no
element lost or duplicated); with exactly one family pinned, the preferred
half keeps only the pinned family's elements and the fallback is empty, so
elements of the other family are dropped. -/
theorem split_totality (S : SocketAddrs) (pv4 : Option Ipv4Addr)
    (pv6 : Option Ipv6Addr) :
    (pv4.isSome = pv6.isSome →
      (SocketAddrs.split_by_preference S pv4 pv6).1.length +
        (SocketAddrs.split_by_preference S pv4 pv6).2.length = S.length ∧
      ((SocketAddrs.split_by_preference S pv4 pv6).1 ++
        (SocketAddrs.split_by_preference S pv4 pv6).2).Perm S) ∧
    (∀ pin4 : Ipv4Addr,
      SocketAddrs.split_by_preference S (some pin4) none =
        (List.filter SocketAddr.is_ipv4 S, [])) ∧
    (∀ pin6 : Ipv6Addr,
      SocketAddrs.split_by_preference S none (some pin6) =
        (List.filter SocketAddr.is_ipv6 S, [])) := by
  refine ⟨?_, fun pin4 => rfl, fun pin6 => rfl⟩
  intro h
  rw [split_unpinned_eq S pv4 pv6 h]
  constructor
  · have hp := (List.filter_append_perm
      (fun a => SocketAddr.is_ipv6 a ==
        ((List.head? S).map SocketAddr.is_ipv6).getD false) S).length_eq
    simpa [List.length_append] using hp
  · exact List.filter_append_perm _ S

/-- Claim C1, as stated, is false at a concrete input: with only the v4
family pinned and a single v6 address in the source, `split_by_preference`
drops the address, so the halves' lengths do not add up to the source's. -/
theorem split_totality_counterexample :
    ¬ ((SocketAddrs.split_by_preference [sampleV6] (some ⟨127, 0, 0, 1⟩)
          none).1.length +
        (SocketAddrs.split_by_preference [sampleV6] (some ⟨127, 0, 0, 1⟩)
          none).2.length =
        ([sampleV6] : SocketAddrs).length) := by
  decide

/-- Claim C2: with both pinned local addresses present or neither present,
the split is the stable partition deciding preference by the family of the
first element — preferred is the in-order filter of the elements sharing the
first element's family, fallback the in-order filter of the rest — and an
empty source yields two empty halves. -/
theorem split_first_family (S : SocketAddrs) (pv4 : Option Ipv4Addr)
    (pv6 : Option Ipv6Addr) (h : pv4.isSome = pv6.isSome) :
    (∀ f t, S = f :: t →
      SocketAddrs.split_by_preference S pv4 pv6 =
        (List.filter (fun a => SocketAddr.is_ipv6 a == SocketAddr.is_ipv6 f) S,
         List.filter
          (fun a => !(SocketAddr.is_ipv6 a == SocketAddr.is_ipv6 f)) S)) ∧
    (S = [] → SocketAddrs.split_by_preference S pv4 pv6 = ([], [])) := by
  constructor
  · rintro f t rfl
    rw [split_unpinned_eq _ _ _ h]
    simp
  · rintro rfl
    rw [split_unpinned_eq _ _ _ h]
    simp

/-- Witness for claim C2 at the concrete sequence `[::1, 127.0.0.1]` with no
pinning: the v6 first element decides the preference. -/
theorem split_first_family_witness :
    SocketAddrs.split_by_preference [sampleV6, sampleV4] none none =
      (List.filter
        (fun a => SocketAddr.is_ipv6 a == SocketAddr.is_ipv6 sampleV6)
        [sampleV6, sampleV4],
       List.filter
        (fun a => !(SocketAddr.is_ipv6 a == SocketAddr.is_ipv6 sampleV6))
        [sampleV6, sampleV4]) :=
  (split_first_family [sampleV6, sampleV4] none none rfl).1 sampleV6
    [sampleV4] rfl

/-- Claim C3: with exactly one family pinned, the fallback is empty and the
preferred half is exactly the in-order filter of the pinned family — a
subsequence of the source (original relative order) whose members are the
source's members of that family. -/
theorem split_single_pin (S : SocketAddrs) (pin4 : Ipv4Addr)
    (pin6 : Ipv6Addr) :
    ((SocketAddrs.split_by_preference S (some pin4) none).2 = [] ∧
      (SocketAddrs.split_by_preference S (some pin4) none).1 =
        List.filter SocketAddr.is_ipv4 S ∧
      List.Sublist (SocketAddrs.split_by_preference S (some pin4) none).1 S ∧
      (∀ x, x ∈ (SocketAddrs.split_by_preference S (some pin4) none).1 ↔
        x ∈ S ∧ SocketAddr.is_ipv4 x = true)) ∧
    ((SocketAddrs.split_by_preference S none (some pin6)).2 = [] ∧
      (SocketAddrs.split_by_preference S none (some pin6)).1 =
        List.filter SocketAddr.is_ipv6 S ∧
      List.Sublist (SocketAddrs.split_by_preference S none (some pin6)).1 S ∧
      (∀ x, x ∈ (SocketAddrs.split_by_preference S none (some pin6)).1 ↔
        x ∈ S ∧ SocketAddr.is_ipv6 x = true)) := by
  refine ⟨⟨rfl, rfl, ?_, ?_⟩, ⟨rfl, rfl, ?_, ?_⟩⟩
  · exact List.filter_sublist S
  · intro x
    show x ∈ List.filter SocketAddr.is_ipv4 S ↔
      x ∈ S ∧ SocketAddr.is_ipv4 x = true
    exact List.mem_filter
  · exact List.filter_sublist S
  · intro x
    show x ∈ List.filter SocketAddr.is_ipv6 S ↔
      x ∈ S ∧ SocketAddr.is_ipv6 x = true
    exact List.mem_filter

/-- Claim C4: a host string that parses as an IPv4 or IPv6 literal makes
`try_parse` return the single-element sequence of that address paired with
the given port; a string that parses as neither returns `none`. `try_parse`
is a function of the host string and port alone: it takes no override table
and no resolver. -/
theorem try_parse_literal (host : String) (port : Nat) :
    (∀ a, parseIpv4 host = some a →
      SocketAddrs.try_parse host port = some [SocketAddr.v4 a port]) ∧
    (∀ a, parseIpv4 host = none → parseIpv6 host = some a →
      SocketAddrs.try_parse host port = some [SocketAddr.v6 a port 0 0]) ∧
    (parseIpv4 host = none → parseIpv6 host = none →
      SocketAddrs.try_parse host port = none) := by
  refine ⟨?_, ?_, ?_⟩
  · intro a ha
    simp [SocketAddrs.try_parse, ha]
  · intro a h4 h6
    simp [SocketAddrs.try_parse, h4, h6]
  · intro h4 h6
    simp [SocketAddrs.try_parse, h4, h6]

/-- Claim C5: for a hostname that is a key of the override table (matched by
exact string equality), `call` produces the override-hit task carrying
exactly the table's address list in its original order, and that task
performs no platform lookup; a hostname equal to no key — wildcard or suffix
relations included — always takes the platform-lookup path. -/
theorem resolve_override_exact (r : CustomResolver) (name : String)
    (addrs : List SocketAddr)
    (h : overridesGet r.overrides name = some addrs) :
    CustomResolver.call r name = ResolverTask.overrideHit addrs ∧
    ResolverTask.immediate (CustomResolver.call r name) = some addrs ∧
    ResolverTask.platformLookups (CustomResolver.call r name) = 0 ∧
    (∀ n, List.all r.overrides (fun p => !(p.1 == n)) = true →
      CustomResolver.call r n = ResolverTask.platformLookup n) := by
  have hc : CustomResolver.call r name = ResolverTask.overrideHit addrs := by
    simp [CustomResolver.call, h]
  refine ⟨hc, by rw [hc]; rfl, by rw [hc]; rfl, ?_⟩
  intro n hn
  have hf : List.find? (fun p => p.1 == n) r.overrides = none := by
    rw [List.find?_eq_none]
    intro p hp
    have := List.all_eq_true.mp hn p hp
    simpa using this
  simp [CustomResolver.call, overridesGet, hf]

/-- Witness for claim C5 at a concrete resolver whose table maps `a.test` to
`[127.0.0.1:80]`. -/
theorem resolve_override_exact_witness :
    CustomResolver.call ⟨[("a.test", [sampleV4])]⟩ "a.test" =
      ResolverTask.overrideHit [sampleV4] ∧
    ResolverTask.immediate
      (CustomResolver.call ⟨[("a.test", [sampleV4])]⟩ "a.test") =
      some [sampleV4] ∧
    ResolverTask.platformLookups
      (CustomResolver.call ⟨[("a.test", [sampleV4])]⟩ "a.test") = 0 ∧
    (∀ n, List.all [("a.test", [sampleV4])] (fun p => !(p.1 == n)) = true →
      CustomResolver.call ⟨[("a.test", [sampleV4])]⟩ n =
        ResolverTask.platformLookup n) :=
  resolve_override_exact ⟨[("a.test", [sampleV4])]⟩ "a.test" [sampleV4]
    (by decide)

/-- Claim C6: dropping a pending resolution aborts the background task;
whatever a later observer then reads from the join handle maps through
`poll` to the `Interrupted` error — never to a successful address sequence
and never to a crash — while dropping an already finished task is a no-op. -/
theorem drop_pending_reads_interrupted :
    CustomResolverFuture.drop HandleState.pending =
      HandleState.abortedPending ∧
    (∀ o, joinOutcome (CustomResolverFuture.drop HandleState.pending) =
        some o →
      CustomResolverFuture.pollMap o =
        PollOutput.failure IoError.interrupted) ∧
    (∀ r, CustomResolverFuture.drop (HandleState.finished r) =
      HandleState.finished r) := by
  refine ⟨rfl, ?_, fun r => rfl⟩
  intro o h
  have ho : JoinOutcome.joinError true = o := Option.some.inj h
  rw [← ho]
  rfl

/-- Claim C7: the override-hit path spawns no blocking platform-lookup work
and performs no network access (its spawned body only hands the captured
list back); the miss path spawns exactly one unit of blocking lookup work
per call. -/
theorem override_hit_no_side_effects (r : CustomResolver) (name : String) :
    (∀ addrs, overridesGet r.overrides name = some addrs →
      ResolverTask.platformLookups (CustomResolver.call r name) = 0 ∧
      ResolverTask.networkAccess (CustomResolver.call r name) = false ∧
      ResolverTask.immediate (CustomResolver.call r name) = some addrs) ∧
    (overridesGet r.overrides name = none →
      ResolverTask.platformLookups (CustomResolver.call r name) = 1) := by
  constructor
  · intro addrs h
    simp [CustomResolver.call, h, ResolverTask.platformLookups,
      ResolverTask.networkAccess, ResolverTask.immediate]
  · intro h
    simp [CustomResolver.call, h, ResolverTask.platformLookups]

/-- Claim C8: a non-cancelled join error — the background worker itself
terminated abnormally — makes `poll` panic (an unrecoverable failure), and
the panic outcome arises from no other join outcome, so a worker crash is
neither converted into an ordinary error value nor masked, and ordinary
outcomes are never escalated to a panic. -/
theorem worker_crash_propagates :
    CustomResolverFuture.pollMap (JoinOutcome.joinError false) =
      PollOutput.panicked ∧
    (∀ o, CustomResolverFuture.pollMap o = PollOutput.panicked →
      o = JoinOutcome.joinError false) := by
  refine ⟨rfl, ?_⟩
  intro o h
  cases o with
  | ok r =>
    cases r with
    | ok a => simp [CustomResolverFuture.pollMap] at h
    | error e => simp [CustomResolverFuture.pollMap] at h
  | joinError c =>
    cases c with
    | false => rfl
    | true => simp [CustomResolverFuture.pollMap] at h

/-- Claim C9: every call that misses the override table spawns its blocking
platform lookup through `spawn_blocking`, which runs on the dedicated
blocking thread pool and not on the cooperative scheduler's executor; more
generally, every task that performs a platform lookup is scheduled on the
blocking pool. -/
theorem miss_uses_blocking_pool (r : CustomResolver) (name : String)
    (h : overridesGet r.overrides name = none) :
    CustomResolver.call r name = ResolverTask.platformLookup name ∧
    ResolverTask.spawnContext (CustomResolver.call r name) =
      ExecutionContext.blockingThreadPool ∧
    (∀ t : ResolverTask, 0 < ResolverTask.platformLookups t →
      ResolverTask.spawnContext t = ExecutionContext.blockingThreadPool) := by
  have hc : CustomResolver.call r name = ResolverTask.platformLookup name := by
    simp [CustomResolver.call, h]
  refine ⟨hc, by rw [hc]; rfl, ?_⟩
  intro t ht
  cases t with
  | overrideHit addrs => simp [ResolverTask.platformLookups] at ht
  | platformLookup n => rfl

/-- Witness for claim C9 at a concrete resolver with an empty override table
and the hostname `b.test`. -/
theorem miss_uses_blocking_pool_witness :
    CustomResolver.call ⟨[]⟩ "b.test" = ResolverTask.platformLookup "b.test" ∧
    ResolverTask.spawnContext (CustomResolver.call ⟨[]⟩ "b.test") =
      ExecutionContext.blockingThreadPool ∧
    (∀ t : ResolverTask, 0 < ResolverTask.platformLookups t →
      ResolverTask.spawnContext t = ExecutionContext.blockingThreadPool) :=
  miss_uses_blocking_pool ⟨[]⟩ "b.test" rfl

/-- Claim C10: every v6 element of any sequence `try_parse` returns has
flowinfo 0 and scope id 0 — the literal-parse path constructs its v6 socket
address as `SocketAddrV6::new(addr, port, 0, 0)`, so scoped-address
information cannot be carried through it. -/
theorem try_parse_no_scope (host : String) (port : Nat) :
    ∀ l, SocketAddrs.try_parse host port = some l →
      ∀ ip p fi sc, SocketAddr.v6 ip p fi sc ∈ l → fi = 0 ∧ sc = 0 := by
  intro l hl ip p fi sc hm
  cases h4 : parseIpv4 host with
  | some a =>
    simp [SocketAddrs.try_parse, h4] at hl
    rw [← hl] at hm
    simp at hm
  | none =>
    cases h6 : parseIpv6 host with
    | some a =>
      simp [SocketAddrs.try_parse, h4, h6] at hl
      rw [← hl] at hm
      simp at hm
      exact ⟨hm.2.2.1, hm.2.2.2⟩
    | none =>
      simp [SocketAddrs.try_parse, h4, h6] at hl

/-- Witness for claim C10 at the concrete literal `::1` and port 443. -/
theorem try_parse_no_scope_witness : (0 : Nat) = 0 ∧ (0 : Nat) = 0 :=
  try_parse_no_scope "::1" 443
    [SocketAddr.v6 ⟨[0, 0, 0, 0, 0, 0, 0, 1]⟩ 443 0 0] (by decide)
    ⟨[0, 0, 0, 0, 0, 0, 0, 1]⟩ 443 0 0 (by decide)

end Resolver
